import Mathlib

/-!
Verification of the real-time alert pipeline of the dtlabs IoT monitoring
backend (Go).  This file shallowly embeds, in Lean 4:

* the notification rule evaluator of
  backend/internal/services/notification_service.go
  (checkCondition, checkConditions, appliesToDevice, getTriggeredValue,
  sendNotification, CheckHeartbeat, CreateNotification);
* the WebSocket Hub coordinator of internal/websocket (Hub.Run,
  Hub.listenRedis delivery, Hub.Stop, safeClose);
* the RabbitMQ heartbeat consumer loop of internal/mq
  (HeartbeatConsumer.Start).

Modelling conventions:
* Go float64 metric and threshold values are modelled as Rat.  The claims
  considered here only involve order/equality comparisons on ordinary
  decimal values, where Rat and binary floating point agree.
* uuid.UUID values are modelled as String (only identity matters).
* A gorm datatypes.JSON column that the service decodes with
  json.Unmarshal is modelled as an Option of the decoded Go value:
  none models a payload on which json.Unmarshal returns an error.
* Fallible repository collaborators are modelled as explicit function
  fields of an environment record returning Except values.
* Side effects (Redis publishes, channel closes, socket closes) are
  modelled as explicit data in the function results / state records.
-/

/-- A JSON scalar stored as a condition threshold.  In Go the field is
declared interface{}; after json.Unmarshal a JSON number arrives as
float64, a JSON string as string, and anything else (bool, null, array,
object) falls into the default branch of the type switch in
checkCondition.  (The int and float32 cases of that switch are
unreachable from JSON-decoded data and are numeric anyway, so num covers
them.) -/
inductive CondValue where
  | num (v : Rat)
  | str (s : String)
  | other
deriving DecidableEq, Repr

/-- dto.NotificationCondition: one threshold condition of a rule. -/
structure NotificationCondition where
  parameter : String
  operator : String
  value : CondValue
deriving DecidableEq, Repr

/-- models.Heartbeat: one telemetry reading (timestamps omitted; no claim
mentions them).  CPU, RAM, DiskFree, Temperature are float64 in Go;
Latency and Connectivity are int. -/
structure Heartbeat where
  deviceID : String
  cpu : Rat
  ram : Rat
  diskFree : Rat
  temperature : Rat
  latency : Int
  connectivity : Int
deriving DecidableEq, Repr

/-- The parameter-name switch shared verbatim by checkCondition and
getTriggeredValue in notification_service.go: maps a condition parameter
to the corresponding heartbeat field, none for the default branch. -/
def heartbeatValue (parameter : String) (heartbeat : Heartbeat) : Option Rat :=
  match parameter with
  | "cpu" => some heartbeat.cpu
  | "ram" => some heartbeat.ram
  | "disk_free" => some heartbeat.diskFree
  | "temperature" => some heartbeat.temperature
  | "latency" => some (heartbeat.latency : Rat)
  | "connectivity" => some (heartbeat.connectivity : Rat)
  | _ => none

/-- The threshold type switch in checkCondition: only a numeric threshold
yields a comparison value; the default branch returns false (modelled as
none here). -/
def condNumericValue : CondValue → Option Rat
  | CondValue.num v => some v
  | _ => none

/-- The operator switch in checkCondition; an unknown operator falls to
the default branch returning false. -/
def applyOperator (op : String) (value conditionValue : Rat) : Bool :=
  match op with
  | ">" => decide (value > conditionValue)
  | "<" => decide (value < conditionValue)
  | ">=" => decide (value ≥ conditionValue)
  | "<=" => decide (value ≤ conditionValue)
  | "==" => decide (value = conditionValue)
  | "!=" => decide (value ≠ conditionValue)
  | _ => false

/-- notificationService.checkCondition. -/
def checkCondition (condition : NotificationCondition) (heartbeat : Heartbeat) : Bool :=
  match heartbeatValue condition.parameter heartbeat with
  | none => false
  | some value =>
    match condNumericValue condition.value with
    | none => false
    | some conditionValue => applyOperator condition.operator value conditionValue

/-- The loop body of notificationService.checkConditions: return false on
the first failing condition, true when the list is exhausted. -/
def checkConditionsList (conditions : List NotificationCondition) (heartbeat : Heartbeat) : Bool :=
  match conditions with
  | [] => true
  | condition :: rest =>
    if checkCondition condition heartbeat then checkConditionsList rest heartbeat
    else false

/-- notificationService.checkConditions: json.Unmarshal of the stored
conditions column (none = decode error, which returns false), then the
conjunction loop. -/
def checkConditions (conditionsJSON : Option (List NotificationCondition))
    (heartbeat : Heartbeat) : Bool :=
  match conditionsJSON with
  | none => false
  | some conditions => checkConditionsList conditions heartbeat

/-- The loop of notificationService.getTriggeredValue: the value of the
first condition whose parameter is recognized; 0 when none is. -/
def getTriggeredValueList (conditions : List NotificationCondition)
    (heartbeat : Heartbeat) : Rat :=
  match conditions with
  | [] => 0
  | condition :: rest =>
    match heartbeatValue condition.parameter heartbeat with
    | some v => v
    | none => getTriggeredValueList rest heartbeat

/-- notificationService.getTriggeredValue: decode error yields 0. -/
def getTriggeredValue (conditionsJSON : Option (List NotificationCondition))
    (heartbeat : Heartbeat) : Rat :=
  match conditionsJSON with
  | none => 0
  | some conditions => getTriggeredValueList conditions heartbeat

/-- models.Notification: a notification rule row.  The Conditions and
DeviceIDs jsonb columns are kept as their decoded Go values, with none
modelling a column on which json.Unmarshal fails. -/
structure Notification where
  id : String
  userID : String
  name : String
  description : String
  enabled : Bool
  conditions : Option (List NotificationCondition)
  deviceIDs : Option (List String)
deriving DecidableEq, Repr

/-- models.Device (timestamps omitted). -/
structure Device where
  uuid : String
  name : String
  location : String
  sn : String
  description : String
  userID : String
deriving DecidableEq, Repr

/-- notificationService.appliesToDevice: decode error means false, empty
decoded list means the rule applies to every device of the owner,
otherwise membership of the device id in the decoded list. -/
def appliesToDevice (notification : Notification) (deviceID : String) : Bool :=
  match notification.deviceIDs with
  | none => false
  | some deviceIDs =>
    if deviceIDs.length = 0 then true
    else deviceIDs.contains deviceID

/-- The notification payload map built by sendNotification (the timestamp
field is omitted; no claim mentions it). -/
structure NotificationMessage where
  id : String
  userID : String
  name : String
  description : String
  deviceSN : String
  triggeredValue : Rat
  hbCPU : Rat
  hbRAM : Rat
  hbDiskFree : Rat
  hbTemperature : Rat
  hbLatency : Int
  hbConnectivity : Int
deriving DecidableEq, Repr

/-- One Redis Publish call: the channel name and the message payload
(json.Marshal of the payload map cannot fail on these field types, so the
publish call is always reached; it is modelled structurally rather than
as the serialized byte string). -/
structure Publish where
  channel : String
  message : NotificationMessage
deriving DecidableEq, Repr

/-- notificationService.sendNotification: builds the payload map and
publishes it on channel "notifications:" + userID. -/
def sendNotification (userID : String) (notification : Notification)
    (device : Device) (heartbeat : Heartbeat) : Publish :=
  { channel := "notifications:" ++ userID
    message :=
      { id := notification.id
        userID := userID
        name := notification.name
        description := notification.description
        deviceSN := device.sn
        triggeredValue := getTriggeredValue notification.conditions heartbeat
        hbCPU := heartbeat.cpu
        hbRAM := heartbeat.ram
        hbDiskFree := heartbeat.diskFree
        hbTemperature := heartbeat.temperature
        hbLatency := heartbeat.latency
        hbConnectivity := heartbeat.connectivity } }

/-- Error classes of the device repository lookup as distinguished by
CheckHeartbeat: gorm.ErrRecordNotFound versus any other error. -/
inductive RepoError where
  | recordNotFound
  | otherError
deriving DecidableEq, Repr

/-- The service-level errors CheckHeartbeat can return. -/
inductive ServiceError where
  | deviceNotFound
  | databaseError
deriving DecidableEq, Repr

/-- Environment of CheckHeartbeat: the device repository and the stored
notification rules per owner.  rulesQueryFails models a failing
FindActiveByUserID database query. -/
structure NotifEnv where
  findDevice : String → Except RepoError Device
  rules : String → List Notification
  rulesQueryFails : Bool

/-- notificationRepository.FindActiveByUserID: the SQL query
"user_id = ? AND enabled = true" modelled as filtering the owner's stored
rules on the enabled flag. -/
def findActiveByUserID (env : NotifEnv) (userID : String) :
    Except Unit (List Notification) :=
  if env.rulesQueryFails then Except.error ()
  else Except.ok ((env.rules userID).filter (fun n => n.enabled))

/-- The rule loop of CheckHeartbeat: skip rules that do not apply to the
device, publish for rules whose conditions all hold (the publish error is
only logged, so the loop continues either way). -/
def evalRules (userID : String) (device : Device) (heartbeat : Heartbeat) :
    List Notification → List Publish
  | [] => []
  | notification :: rest =>
    if appliesToDevice notification device.uuid then
      if checkConditions notification.conditions heartbeat then
        sendNotification userID notification device heartbeat ::
          evalRules userID device heartbeat rest
      else evalRules userID device heartbeat rest
    else evalRules userID device heartbeat rest

/-- notificationService.CheckHeartbeat: resolve the device, fetch the
owner's enabled rules, and run the rule loop, returning the list of
Publish calls made. -/
def CheckHeartbeat (env : NotifEnv) (heartbeat : Heartbeat) :
    Except ServiceError (List Publish) :=
  match env.findDevice heartbeat.deviceID with
  | Except.error RepoError.recordNotFound => Except.error ServiceError.deviceNotFound
  | Except.error RepoError.otherError => Except.error ServiceError.databaseError
  | Except.ok device =>
    match findActiveByUserID env device.userID with
    | Except.error _ => Except.error ServiceError.databaseError
    | Except.ok notifications =>
      Except.ok (evalRules device.userID device heartbeat notifications)

/-- The validParameters slice of isValidParameter. -/
def validParameters : List String :=
  ["cpu", "ram", "disk_free", "temperature", "latency", "connectivity"]

/-- services.isValidParameter. -/
def isValidParameter (parameter : String) : Bool :=
  validParameters.contains parameter

/-- The validOperators slice of isValidOperator. -/
def validOperators : List String := [">", "<", ">=", "<=", "==", "!="]

/-- services.isValidOperator. -/
def isValidOperator (operator : String) : Bool :=
  validOperators.contains operator

/-- dto.CreateNotificationRequest. -/
structure CreateNotificationRequest where
  name : String
  description : String
  enabled : Bool
  conditions : List NotificationCondition
  deviceIDs : List String
deriving DecidableEq, Repr

/-- The validation loop of CreateNotification: the first condition with an
invalid parameter or operator produces the corresponding error message;
threshold values are never inspected. -/
def validateConditions : List NotificationCondition → Option String
  | [] => none
  | condition :: rest =>
    if !(isValidParameter condition.parameter) then
      some ("Invalid parameter: " ++ condition.parameter)
    else if !(isValidOperator condition.operator) then
      some ("Invalid operator: " ++ condition.operator)
    else validateConditions rest

/-- notificationService.CreateNotification.  newID stands for the fresh
uuid.New(); repoFails models a failing notificationRepo.Create.
json.Marshal of the request slices cannot fail, and the stored jsonb
columns decode back to the marshalled slices, hence the some fields. -/
def CreateNotification (repoFails : Bool) (newID : String) (userID : String)
    (req : CreateNotificationRequest) : Except String Notification :=
  if req.name = "" then Except.error "Notification name is required"
  else
    match validateConditions req.conditions with
    | some msg => Except.error msg
    | none =>
      if repoFails then Except.error "database error"
      else Except.ok
        { id := newID
          userID := userID
          name := req.name
          description := req.description
          enabled := req.enabled
          conditions := some req.conditions
          deviceIDs := some req.deviceIDs }

example : checkConditionsList
    [⟨"cpu", ">", CondValue.num 80⟩, ⟨"ram", ">", CondValue.num 50⟩]
    ⟨"d", 85, 40, 0, 0, 0, 0⟩ = false := by decide

example : checkConditionsList
    [⟨"cpu", ">", CondValue.num 80⟩, ⟨"ram", ">", CondValue.num 50⟩]
    ⟨"d", 85, 60, 0, 0, 0, 0⟩ = true := by decide

/-! ## The WebSocket Hub (internal/websocket)

The Hub.Run goroutine serializes all mutations of the clients map, so the
coordinator is embedded as a step function on an explicit state.  The
clients map is an association list manipulated through findKey, eraseKey
and insertion, which implement exactly the Go map operations used
(lookup, delete, assign).  Channel closes performed through safeClose and
websocket Conn.Close calls are recorded in the state: chanClosed is the
set of connections whose Send channel has been closed (safeClose recovers
from a double close, so closing twice has no effect), and socketCloses is
the multiset of Conn.Close calls. -/

/-- websocket.Client: the Send channel is modelled by its queued contents
plus its capacity (256 in HandleWebSocket); connId models the pointer
identity of the Go *Client, which Hub.Run compares with ==. -/
structure Client where
  userID : String
  connId : Nat
  send : List String
  cap : Nat
deriving DecidableEq, Repr

/-- State of the Hub: the clients table, the record of closed Send
channels and Conn.Close calls, and whether the shutdown channel has been
closed. -/
structure HubState where
  clients : List (String × Client)
  chanClosed : List Nat
  socketCloses : List Nat
  stopped : Bool
deriving DecidableEq, Repr

/-- NewHub. -/
def initialHub : HubState :=
  { clients := [], chanClosed := [], socketCloses := [], stopped := false }

/-- Go map lookup h.clients[userID]. -/
def findKey (u : String) : List (String × Client) → Option Client
  | [] => none
  | p :: rest => if p.1 = u then some p.2 else findKey u rest

/-- Go map delete(h.clients, userID). -/
def eraseKey (u : String) : List (String × Client) → List (String × Client)
  | [] => []
  | p :: rest => if p.1 = u then eraseKey u rest else p :: eraseKey u rest

/-- Number of table entries for one owner key (an observation, not an
operation of the source; used to state the one-connection-per-owner
invariant). -/
def countKey (u : String) : List (String × Client) → Nat
  | [] => 0
  | p :: rest => (if p.1 = u then 1 else 0) + countKey u rest

/-- safeClose: close the Send channel, recovering from the panic when it
is already closed — so an already-closed channel is left untouched. -/
def safeCloseChan (s : HubState) (connId : Nat) : HubState :=
  if connId ∈ s.chanClosed then s
  else { s with chanClosed := connId :: s.chanClosed }

/-- A websocket Conn.Close call (recorded; gorilla allows repeated calls). -/
def closeSocket (s : HubState) (connId : Nat) : HubState :=
  { s with socketCloses := connId :: s.socketCloses }

/-- The register case of Hub.Run: if the owner already has a connection,
delete it from the table, close its Send channel and its socket, then
install the new connection under its owner key. -/
def stepRegister (s : HubState) (c : Client) : HubState :=
  let s1 :=
    match findKey c.userID s.clients with
    | some existing =>
      closeSocket
        (safeCloseChan { s with clients := eraseKey c.userID s.clients }
          existing.connId)
        existing.connId
    | none => s
  { s1 with clients := (c.userID, c) :: eraseKey c.userID s1.clients }

/-- The unregister case of Hub.Run: only if the table still maps the
owner to this very connection (pointer comparison existing == client,
modelled by connId) is it deleted and closed; a stale unregister is a
no-op. -/
def stepUnregister (s : HubState) (c : Client) : HubState :=
  match findKey c.userID s.clients with
  | some existing =>
    if existing.connId = c.connId then
      closeSocket
        (safeCloseChan { s with clients := eraseKey c.userID s.clients }
          c.connId)
        c.connId
    else s
  | none => s

/-- The range loop of the shutdown case of Hub.Run: close every table
entry's Send channel and socket. -/
def drainClients : HubState → List (String × Client) → HubState
  | s, [] => s
  | s, (_, c) :: rest =>
    drainClients (closeSocket (safeCloseChan s c.connId) c.connId) rest

/-- The shutdown case of Hub.Run: close everything and empty the table
(the loop also deletes every key). -/
def stepShutdown (s : HubState) : HubState :=
  { drainClients s s.clients with clients := [] }

/-- The three event sources of the Hub.Run select. -/
inductive HubEvent where
  | register (c : Client)
  | unregister (c : Client)
  | shutdown
deriving DecidableEq, Repr

/-- Hub.Run over a sequence of coordinator events; on shutdown the loop
returns, so later events are not processed. -/
def hubRun : HubState → List HubEvent → HubState
  | s, [] => s
  | s, HubEvent.register c :: rest => hubRun (stepRegister s c) rest
  | s, HubEvent.unregister c :: rest => hubRun (stepUnregister s c) rest
  | s, HubEvent.shutdown :: _ => stepShutdown s

/-- Go map assignment of an already-present key, used when a delivered
message is queued onto the found client's Send channel: replace the entry
in place. -/
def updateClientEntry (u : String) (c : Client) :
    List (String × Client) → List (String × Client)
  | [] => []
  | p :: rest => if p.1 = u then (p.1, c) :: rest else p :: updateClientEntry u c rest

/-- The per-message body of Hub.listenRedis once the user id has been
extracted from the payload: look up the live connection; with no
connection, log and drop; otherwise try a non-blocking send onto the Send
channel — it succeeds iff the buffer is not full — and on a full channel
drop the message and send the client to the unregister channel, which the
serialized coordinator then processes. -/
def deliverAlert (s : HubState) (userID : String) (payload : String) : HubState :=
  match findKey userID s.clients with
  | none => s
  | some client =>
    if client.send.length < client.cap then
      { s with
        clients := updateClientEntry userID
          { client with send := client.send ++ [payload] } s.clients }
    else
      stepUnregister s client

/-- Hub.Stop: close the shutdown channel unless it is already closed (the
select with a default makes the second call a no-op). -/
def hubStop (s : HubState) : HubState :=
  if s.stopped then s else { s with stopped := true }

/-- Hub.Stop together with the reaction of Hub.Run to the closed shutdown
channel: the first call closes the channel and the running coordinator
drains the table and exits; once stopped, a further call does nothing
(the select in Stop hits the closed-channel case and the coordinator loop
has already returned). -/
def stopAndDrain (s : HubState) : HubState :=
  if s.stopped then s else stepShutdown { s with stopped := true }

/-! ## The heartbeat consumer (internal/mq/heartbeat_consumer.go) -/

/-- dto.HeartbeatMessage as decoded from the queue body (BootTime as an
abstract integer timestamp). -/
structure HeartbeatMsg where
  deviceID : String
  cpu : Rat
  ram : Rat
  diskFree : Rat
  temperature : Rat
  latency : Int
  connectivity : Int
  bootTime : Int
deriving DecidableEq, Repr

/-- The models.Heartbeat the consumer builds from a decoded message. -/
def msgToHeartbeat (deviceID : String) (msg : HeartbeatMsg) : Heartbeat :=
  { deviceID := deviceID
    cpu := msg.cpu
    ram := msg.ram
    diskFree := msg.diskFree
    temperature := msg.temperature
    latency := msg.latency
    connectivity := msg.connectivity }

/-- The successive processing steps of the consumer loop body, in source
order: json.Unmarshal, uuid.Parse of the device id, deviceRepo.FindByID,
heartbeatService.CreateHeartbeat, notificationService.CheckHeartbeat. -/
inductive ConsumeAction where
  | deserialize
  | parseId
  | resolveDevice
  | persist
  | evaluate
deriving DecidableEq, Repr

/-- The full trace of a message that reaches rule evaluation. -/
def fullConsumeTrace : List ConsumeAction :=
  [ConsumeAction.deserialize, ConsumeAction.parseId, ConsumeAction.resolveDevice,
   ConsumeAction.persist, ConsumeAction.evaluate]

/-- The collaborators of HeartbeatConsumer.Start, each fallible. -/
structure ConsumerEnv where
  decode : String → Option HeartbeatMsg
  parseUUID : String → Option String
  findDevice : String → Except Unit Device
  createHeartbeat : String → HeartbeatMsg → Except Unit Unit
  checkHeartbeat : Heartbeat → Except Unit Unit

/-- The loop body of HeartbeatConsumer.Start for one delivery, returning
the trace of steps performed on that message.  Every failure branch of
the source executes continue (or, for CheckHeartbeat, only logs), so the
body is total: the trace stops at the failing step and the message is
discarded. -/
def processOne (env : ConsumerEnv) (body : String) : List ConsumeAction :=
  match env.decode body with
  | none => [ConsumeAction.deserialize]
  | some msg =>
    match env.parseUUID msg.deviceID with
    | none => [ConsumeAction.deserialize, ConsumeAction.parseId]
    | some deviceID =>
      match env.findDevice deviceID with
      | Except.error _ =>
        [ConsumeAction.deserialize, ConsumeAction.parseId, ConsumeAction.resolveDevice]
      | Except.ok _ =>
        match env.createHeartbeat deviceID msg with
        | Except.error _ =>
          [ConsumeAction.deserialize, ConsumeAction.parseId,
           ConsumeAction.resolveDevice, ConsumeAction.persist]
        | Except.ok _ =>
          match env.checkHeartbeat (msgToHeartbeat deviceID msg) with
          | Except.error _ => fullConsumeTrace
          | Except.ok _ => fullConsumeTrace

/-- The for d := range msgs loop of HeartbeatConsumer.Start: each
delivered body is processed by the loop body; no per-message outcome
breaks the loop. -/
def consumeLoop (env : ConsumerEnv) : List String → List (List ConsumeAction)
  | [] => []
  | body :: rest => processOne env body :: consumeLoop env rest

/-- The one-connection-per-owner table invariant of the Hub. -/
def TableOK (s : HubState) : Prop :=
  ∀ u, countKey u s.clients ≤ 1

/-! ## Helper lemmas -/

theorem closeSocket_clients (s : HubState) (i : Nat) :
    (closeSocket s i).clients = s.clients := rfl

theorem closeSocket_chanClosed (s : HubState) (i : Nat) :
    (closeSocket s i).chanClosed = s.chanClosed := rfl

theorem closeSocket_socketCloses (s : HubState) (i : Nat) :
    (closeSocket s i).socketCloses = i :: s.socketCloses := rfl

theorem closeSocket_stopped (s : HubState) (i : Nat) :
    (closeSocket s i).stopped = s.stopped := rfl

theorem safeCloseChan_clients (s : HubState) (i : Nat) :
    (safeCloseChan s i).clients = s.clients := by
  unfold safeCloseChan; split <;> rfl

theorem safeCloseChan_socketCloses (s : HubState) (i : Nat) :
    (safeCloseChan s i).socketCloses = s.socketCloses := by
  unfold safeCloseChan; split <;> rfl

theorem safeCloseChan_stopped (s : HubState) (i : Nat) :
    (safeCloseChan s i).stopped = s.stopped := by
  unfold safeCloseChan; split <;> rfl

theorem safeCloseChan_mem_self (s : HubState) (i : Nat) :
    i ∈ (safeCloseChan s i).chanClosed := by
  unfold safeCloseChan
  split
  · assumption
  · exact List.mem_cons_self _ _

theorem safeCloseChan_chanClosed_mono (s : HubState) (i j : Nat)
    (h : j ∈ s.chanClosed) : j ∈ (safeCloseChan s i).chanClosed := by
  unfold safeCloseChan
  split
  · exact h
  · exact List.mem_cons_of_mem _ h

theorem safeCloseChan_chanClosed_nodup (s : HubState) (i : Nat)
    (h : s.chanClosed.Nodup) : (safeCloseChan s i).chanClosed.Nodup := by
  unfold safeCloseChan
  split
  · exact h
  · exact List.Nodup.cons (by assumption) h

theorem eraseKey_idem (u : String) (l : List (String × Client)) :
    eraseKey u (eraseKey u l) = eraseKey u l := by
  induction l with
  | nil => rfl
  | cons p rest ih => by_cases h : p.1 = u <;> simp [eraseKey, h, ih]

theorem countKey_eraseKey_self (u : String) (l : List (String × Client)) :
    countKey u (eraseKey u l) = 0 := by
  induction l with
  | nil => rfl
  | cons p rest ih => by_cases h : p.1 = u <;> simp [eraseKey, countKey, h, ih]

theorem countKey_eraseKey_le (u v : String) (l : List (String × Client)) :
    countKey u (eraseKey v l) ≤ countKey u l := by
  induction l with
  | nil => exact Nat.le_refl 0
  | cons p rest ih =>
    by_cases h : p.1 = v
    · simp only [eraseKey, countKey, if_pos h]
      exact le_trans ih (Nat.le_add_left _ _)
    · simp only [eraseKey, countKey, if_neg h]
      exact Nat.add_le_add_left ih _

theorem findKey_eraseKey_self (u : String) (l : List (String × Client)) :
    findKey u (eraseKey u l) = none := by
  induction l with
  | nil => rfl
  | cons p rest ih => by_cases h : p.1 = u <;> simp [eraseKey, findKey, h, ih]

theorem stepRegister_clients (s : HubState) (c : Client) :
    (stepRegister s c).clients = (c.userID, c) :: eraseKey c.userID s.clients := by
  unfold stepRegister
  cases h : findKey c.userID s.clients with
  | none => simp [h]
  | some existing =>
    simp [h, closeSocket_clients, safeCloseChan_clients, eraseKey_idem]

theorem tableOK_register (s : HubState) (c : Client) (h : TableOK s) :
    TableOK (stepRegister s c) := by
  intro u
  rw [stepRegister_clients]
  by_cases hc : c.userID = u
  · subst hc
    simp [countKey, countKey_eraseKey_self]
  · simp only [countKey, if_neg hc, Nat.zero_add]
    exact le_trans (countKey_eraseKey_le u c.userID s.clients) (h u)

theorem tableOK_unregister (s : HubState) (c : Client) (h : TableOK s) :
    TableOK (stepUnregister s c) := by
  intro u
  unfold stepUnregister
  cases hf : findKey c.userID s.clients with
  | none => exact h u
  | some existing =>
    by_cases he : existing.connId = c.connId
    · simp only [if_pos he, closeSocket_clients, safeCloseChan_clients]
      exact le_trans (countKey_eraseKey_le u c.userID s.clients) (h u)
    · simp only [if_neg he]
      exact h u

theorem tableOK_hubRun (evs : List HubEvent) :
    ∀ s : HubState, TableOK s → TableOK (hubRun s evs) := by
  induction evs with
  | nil => exact fun s h => h
  | cons e rest ih =>
    intro s h
    cases e with
    | register c => exact ih _ (tableOK_register s c h)
    | unregister c => exact ih _ (tableOK_unregister s c h)
    | shutdown =>
      intro u
      show countKey u (stepShutdown s).clients ≤ 1
      show countKey u [] ≤ 1
      exact Nat.zero_le 1

theorem drainClients_clients (l : List (String × Client)) :
    ∀ s : HubState, (drainClients s l).clients = s.clients := by
  induction l with
  | nil => intro s; rfl
  | cons p rest ih =>
    intro s
    show (drainClients (closeSocket (safeCloseChan s p.2.connId) p.2.connId) rest).clients = _
    rw [ih, closeSocket_clients, safeCloseChan_clients]

theorem drainClients_stopped (l : List (String × Client)) :
    ∀ s : HubState, (drainClients s l).stopped = s.stopped := by
  induction l with
  | nil => intro s; rfl
  | cons p rest ih =>
    intro s
    show (drainClients (closeSocket (safeCloseChan s p.2.connId) p.2.connId) rest).stopped = _
    rw [ih, closeSocket_stopped, safeCloseChan_stopped]

theorem drainClients_chanClosed_mono (l : List (String × Client)) :
    ∀ (s : HubState) (j : Nat), j ∈ s.chanClosed →
      j ∈ (drainClients s l).chanClosed := by
  induction l with
  | nil => exact fun s j h => h
  | cons p rest ih =>
    intro s j h
    exact ih _ j (safeCloseChan_chanClosed_mono s p.2.connId j h)

theorem drainClients_mem_chanClosed (l : List (String × Client)) :
    ∀ (s : HubState) (u : String) (c : Client), (u, c) ∈ l →
      c.connId ∈ (drainClients s l).chanClosed := by
  induction l with
  | nil => intro s u c h; cases h
  | cons p rest ih =>
    intro s u c h
    rcases List.mem_cons.mp h with heq | htail
    · subst heq
      exact drainClients_chanClosed_mono rest _ c.connId
        (safeCloseChan_mem_self s c.connId)
    · exact ih _ u c htail

theorem drainClients_chanClosed_nodup (l : List (String × Client)) :
    ∀ s : HubState, s.chanClosed.Nodup → (drainClients s l).chanClosed.Nodup := by
  induction l with
  | nil => exact fun s h => h
  | cons p rest ih =>
    intro s h
    exact ih _ (safeCloseChan_chanClosed_nodup s p.2.connId h)

theorem drainClients_socketCloses_count (l : List (String × Client)) :
    ∀ (s : HubState) (i : Nat),
      (drainClients s l).socketCloses.count i
        = s.socketCloses.count i + (l.map (fun p => p.2.connId)).count i := by
  induction l with
  | nil => intro s i; simp [drainClients]
  | cons p rest ih =>
    intro s i
    show (drainClients (closeSocket (safeCloseChan s p.2.connId) p.2.connId) rest).socketCloses.count i = _
    rw [ih, closeSocket_socketCloses, safeCloseChan_socketCloses]
    by_cases h : p.2.connId = i
    · simp [List.count_cons, h]
      omega
    · simp [List.count_cons, h]

theorem heartbeatValue_eq_none (p : String) (h : Heartbeat)
    (hp : isValidParameter p = false) : heartbeatValue p h = none := by
  unfold heartbeatValue
  split <;> simp_all [isValidParameter, validParameters]

theorem applyOperator_eq_false (op : String) (v cv : Rat)
    (hop : isValidOperator op = false) : applyOperator op v cv = false := by
  unfold applyOperator
  split <;> simp_all [isValidOperator, validOperators]

theorem evalRules_eq_filter (u : String) (dev : Device) (hb : Heartbeat)
    (ns : List Notification) :
    evalRules u dev hb ns
      = (ns.filter
          (fun n => appliesToDevice n dev.uuid && checkConditions n.conditions hb)).map
          (fun n => sendNotification u n dev hb) := by
  induction ns with
  | nil => rfl
  | cons n rest ih =>
    by_cases h1 : appliesToDevice n dev.uuid <;>
      by_cases h2 : checkConditions n.conditions hb <;>
        simp [evalRules, List.filter_cons, h1, h2, ih]

theorem validateConditions_eq_none (conds : List NotificationCondition)
    (h : ∀ c ∈ conds, isValidParameter c.parameter = true ∧
      isValidOperator c.operator = true) :
    validateConditions conds = none := by
  induction conds with
  | nil => rfl
  | cons c rest ih =>
    have hc := h c (List.mem_cons_self c rest)
    simp only [validateConditions, hc.1, hc.2, Bool.not_true, Bool.false_eq_true,
      if_false]
    exact ih (fun d hd => h d (List.mem_cons_of_mem c hd))

/-! ## Claim theorems -/

/-- C2: a rule's condition list evaluates as a logical AND with
short-circuit on the first failing condition; each condition compares the
reading's value for its parameter against its numeric threshold with one
of the six comparison operators, an unrecognized parameter (or operator)
making the condition false; the conditions cpu > 80, ram > 50 do not
match the reading with cpu 85 and ram 40, and do match the reading with
cpu 85 and ram 60. -/
theorem checkConditions_semantics :
    (∀ (conditions : List NotificationCondition) (heartbeat : Heartbeat),
      checkConditionsList conditions heartbeat
        = conditions.all (fun c => checkCondition c heartbeat)) ∧
    (∀ (condition : NotificationCondition) (conditions : List NotificationCondition)
        (heartbeat : Heartbeat),
      checkCondition condition heartbeat = false →
      checkConditionsList (condition :: conditions) heartbeat = false) ∧
    (∀ (condition : NotificationCondition) (heartbeat : Heartbeat),
      isValidParameter condition.parameter = false →
      checkCondition condition heartbeat = false) ∧
    (∀ (condition : NotificationCondition) (heartbeat : Heartbeat),
      isValidOperator condition.operator = false →
      checkCondition condition heartbeat = false) ∧
    checkConditionsList
      [⟨"cpu", ">", CondValue.num 80⟩, ⟨"ram", ">", CondValue.num 50⟩]
      ⟨"d", 85, 40, 0, 0, 0, 0⟩ = false ∧
    checkConditionsList
      [⟨"cpu", ">", CondValue.num 80⟩, ⟨"ram", ">", CondValue.num 50⟩]
      ⟨"d", 85, 60, 0, 0, 0, 0⟩ = true := by
  refine ⟨?_, ?_, ?_, ?_, by decide, by decide⟩
  · intro conditions heartbeat
    induction conditions with
    | nil => rfl
    | cons c rest ih =>
      by_cases h : checkCondition c heartbeat <;>
        simp [checkConditionsList, List.all_cons, h, ih]
  · intro condition conditions heartbeat h
    simp [checkConditionsList, h]
  · intro condition heartbeat h
    simp [checkCondition, heartbeatValue_eq_none condition.parameter heartbeat h]
  · intro condition heartbeat h
    unfold checkCondition
    cases hv : heartbeatValue condition.parameter heartbeat with
    | none => rfl
    | some v =>
      cases hc : condNumericValue condition.value with
      | none => rfl
      | some cv => exact applyOperator_eq_false condition.operator v cv h

/-- Witness for checkConditions_semantics at concrete inputs. -/
theorem checkConditions_semantics_witness :
    checkConditionsList
      [⟨"cpu", ">", CondValue.num 90⟩, ⟨"ram", ">", CondValue.num 50⟩]
      ⟨"d", 85, 60, 0, 0, 0, 0⟩ = false ∧
    checkCondition ⟨"humidity", ">", CondValue.num 10⟩
      ⟨"d", 85, 60, 0, 0, 0, 0⟩ = false ∧
    checkCondition ⟨"cpu", "=>", CondValue.num 10⟩
      ⟨"d", 85, 60, 0, 0, 0, 0⟩ = false := by
  refine ⟨?_, ?_, ?_⟩
  · exact checkConditions_semantics.2.1 ⟨"cpu", ">", CondValue.num 90⟩
      [⟨"ram", ">", CondValue.num 50⟩] ⟨"d", 85, 60, 0, 0, 0, 0⟩ (by decide)
  · exact checkConditions_semantics.2.2.1 ⟨"humidity", ">", CondValue.num 10⟩
      ⟨"d", 85, 60, 0, 0, 0, 0⟩ (by decide)
  · exact checkConditions_semantics.2.2.2.1 ⟨"cpu", "=>", CondValue.num 10⟩
      ⟨"d", 85, 60, 0, 0, 0, 0⟩ (by decide)

/-- C3: a rule whose decoded device-scope list is empty applies to every
device of its owner; a rule with a non-empty scope applies to a device
exactly when the device id is listed; a rule that does not apply to the
device is skipped by the CheckHeartbeat rule loop. -/
theorem appliesToDevice_scope (n : Notification) (ids : List String) (d : String)
    (h : n.deviceIDs = some ids) :
    (ids = [] → appliesToDevice n d = true) ∧
    (ids ≠ [] → (appliesToDevice n d = true ↔ d ∈ ids)) ∧
    (∀ (u : String) (dev : Device) (hb : Heartbeat) (rest : List Notification),
      appliesToDevice n dev.uuid = false →
      evalRules u dev hb (n :: rest) = evalRules u dev hb rest) := by
  refine ⟨?_, ?_, ?_⟩
  · intro he
    subst he
    simp [appliesToDevice, h]
  · intro hne
    have hlen : ¬ ids.length = 0 := by
      simpa [List.length_eq_zero] using hne
    simp [appliesToDevice, h, hlen]
  · intro u dev hb rest happ
    simp [evalRules, happ]

/-- Witness for appliesToDevice_scope at concrete inputs. -/
theorem appliesToDevice_scope_witness :
    appliesToDevice ⟨"n1", "u1", "r", "", true, some [], some []⟩ "dev9" = true ∧
    (appliesToDevice ⟨"n2", "u1", "r", "", true, some [], some ["dev1", "dev2"]⟩
        "dev9" = true ↔ "dev9" ∈ ["dev1", "dev2"]) := by
  constructor
  · exact (appliesToDevice_scope ⟨"n1", "u1", "r", "", true, some [], some []⟩
      [] "dev9" rfl).1 rfl
  · exact (appliesToDevice_scope
      ⟨"n2", "u1", "r", "", true, some [], some ["dev1", "dev2"]⟩
      ["dev1", "dev2"] "dev9" rfl).2.1 (by decide)

/-- C4: when a non-empty condition list fully matches a reading, the
triggered value reported by getTriggeredValue — and hence placed in the
published message by sendNotification — is the reading's value for the
parameter named by the first condition of the list, however many
conditions contributed to the match. -/
theorem getTriggeredValue_first_condition (n : Notification)
    (c : NotificationCondition) (rest : List NotificationCondition)
    (hb : Heartbeat) (hcond : n.conditions = some (c :: rest))
    (hmatch : checkConditions n.conditions hb = true) :
    heartbeatValue c.parameter hb = some (getTriggeredValue n.conditions hb) ∧
    (∀ (u : String) (dev : Device),
      (sendNotification u n dev hb).message.triggeredValue
        = getTriggeredValue n.conditions hb) := by
  constructor
  · have hc : checkCondition c hb = true := by
      rw [hcond] at hmatch
      by_cases hcc : checkCondition c hb
      · exact hcc
      · simp [checkConditions, checkConditionsList, hcc] at hmatch
    cases hv : heartbeatValue c.parameter hb with
    | none => simp [checkCondition, hv] at hc
    | some v =>
      rw [hcond]
      simp [getTriggeredValue, getTriggeredValueList, hv]
  · intro u dev
    rfl

/-- Witness for getTriggeredValue_first_condition at concrete inputs. -/
theorem getTriggeredValue_first_condition_witness :
    heartbeatValue "cpu" ⟨"d", 85, 60, 0, 0, 0, 0⟩
      = some (getTriggeredValue
          (some [⟨"cpu", ">", CondValue.num 80⟩, ⟨"ram", ">", CondValue.num 50⟩])
          ⟨"d", 85, 60, 0, 0, 0, 0⟩) := by
  have h := getTriggeredValue_first_condition
    ⟨"n1", "u1", "r", "", true,
      some [⟨"cpu", ">", CondValue.num 80⟩, ⟨"ram", ">", CondValue.num 50⟩],
      some []⟩
    ⟨"cpu", ">", CondValue.num 80⟩ [⟨"ram", ">", CondValue.num 50⟩]
    ⟨"d", 85, 60, 0, 0, 0, 0⟩ rfl (by decide)
  exact h.1

/-- C10: CreateNotification validates each condition's parameter name and
operator but never its threshold value: with a non-empty name, valid
parameters and operators, and a working repository, creation succeeds
whatever the thresholds are; and a condition whose threshold is not
numeric evaluates to false at check time instead of raising an error. -/
theorem createNotification_thresholds_unchecked (newID userID : String)
    (req : CreateNotificationRequest) (hname : ¬ req.name = "")
    (hvalid : ∀ c ∈ req.conditions,
      isValidParameter c.parameter = true ∧ isValidOperator c.operator = true) :
    CreateNotification false newID userID req
      = Except.ok
          { id := newID, userID := userID, name := req.name,
            description := req.description, enabled := req.enabled,
            conditions := some req.conditions,
            deviceIDs := some req.deviceIDs } ∧
    (∀ (c : NotificationCondition) (hb : Heartbeat),
      condNumericValue c.value = none → checkCondition c hb = false) := by
  constructor
  · simp [CreateNotification, hname,
      validateConditions_eq_none req.conditions hvalid]
  · intro c hb h
    unfold checkCondition
    cases hv : heartbeatValue c.parameter hb with
    | none => rfl
    | some v => rw [h]

/-- Witness for createNotification_thresholds_unchecked: a request whose
single condition carries a string threshold is accepted, and that
condition later evaluates to false. -/
theorem createNotification_thresholds_unchecked_witness :
    CreateNotification false "id1" "u1"
      ⟨"High CPU", "", true, [⟨"cpu", ">", CondValue.str "high"⟩], []⟩
      = Except.ok
          { id := "id1", userID := "u1", name := "High CPU", description := "",
            enabled := true,
            conditions := some [⟨"cpu", ">", CondValue.str "high"⟩],
            deviceIDs := some [] } ∧
    checkCondition ⟨"cpu", ">", CondValue.str "high"⟩
      ⟨"d", 85, 60, 0, 0, 0, 0⟩ = false := by
  have h := createNotification_thresholds_unchecked "id1" "u1"
    ⟨"High CPU", "", true, [⟨"cpu", ">", CondValue.str "high"⟩], []⟩
    (by decide) (by decide)
  exact ⟨h.1, h.2 ⟨"cpu", ">", CondValue.str "high"⟩
    ⟨"d", 85, 60, 0, 0, 0, 0⟩ rfl⟩

/-- C5: a heartbeat for a device whose owner has exactly one enabled rule
that is scope-matching and condition-satisfying for the reading results
in exactly one publish call, on channel notifications:{owner}, carrying
the built alert message. -/
theorem checkHeartbeat_single_publish (env : NotifEnv) (hb : Heartbeat)
    (device : Device) (n : Notification)
    (hdev : env.findDevice hb.deviceID = Except.ok device)
    (hq : env.rulesQueryFails = false)
    (hone : ((env.rules device.userID).filter (fun r => r.enabled)).filter
        (fun r => appliesToDevice r device.uuid
          && checkConditions r.conditions hb) = [n]) :
    CheckHeartbeat env hb
      = Except.ok [sendNotification device.userID n device hb] ∧
    (sendNotification device.userID n device hb).channel
      = "notifications:" ++ device.userID := by
  constructor
  · simp [CheckHeartbeat, hdev, findActiveByUserID, hq, evalRules_eq_filter, hone]
  · rfl

/-- Witness for checkHeartbeat_single_publish at concrete inputs. -/
theorem checkHeartbeat_single_publish_witness :
    CheckHeartbeat
      ⟨fun _ => Except.ok ⟨"dev1", "Device", "", "SN1", "", "u1"⟩,
       fun _ => [⟨"n1", "u1", "r", "", true,
         some [⟨"cpu", ">", CondValue.num 80⟩], some []⟩],
       false⟩
      ⟨"dev1", 85, 60, 0, 0, 0, 0⟩
      = Except.ok [sendNotification "u1"
          ⟨"n1", "u1", "r", "", true, some [⟨"cpu", ">", CondValue.num 80⟩],
            some []⟩
          ⟨"dev1", "Device", "", "SN1", "", "u1"⟩
          ⟨"dev1", 85, 60, 0, 0, 0, 0⟩] := by
  exact (checkHeartbeat_single_publish
    ⟨fun _ => Except.ok ⟨"dev1", "Device", "", "SN1", "", "u1"⟩,
     fun _ => [⟨"n1", "u1", "r", "", true,
       some [⟨"cpu", ">", CondValue.num 80⟩], some []⟩],
     false⟩
    ⟨"dev1", 85, 60, 0, 0, 0, 0⟩
    ⟨"dev1", "Device", "", "SN1", "", "u1"⟩
    ⟨"n1", "u1", "r", "", true, some [⟨"cpu", ">", CondValue.num 80⟩], some []⟩
    rfl rfl (by decide)).1

/-- C9: an enabled, scope-matching rule whose stored conditions decode to
the empty list is satisfied vacuously by every reading, so a heartbeat
from a matching device always yields a published alert for it, and the
reported triggered value is 0. -/
theorem emptyConditions_always_alert (env : NotifEnv) (hb : Heartbeat)
    (device : Device) (n : Notification)
    (hdev : env.findDevice hb.deviceID = Except.ok device)
    (hq : env.rulesQueryFails = false)
    (hmem : n ∈ env.rules device.userID)
    (hen : n.enabled = true)
    (happ : appliesToDevice n device.uuid = true)
    (hempty : n.conditions = some []) :
    checkConditions n.conditions hb = true ∧
    (∃ published : List Publish,
      CheckHeartbeat env hb = Except.ok published ∧
      sendNotification device.userID n device hb ∈ published) ∧
    (sendNotification device.userID n device hb).message.triggeredValue = 0 := by
  have hcc : checkConditions n.conditions hb = true := by
    rw [hempty]
    rfl
  refine ⟨hcc, ⟨evalRules device.userID device hb
      ((env.rules device.userID).filter (fun r => r.enabled)), ?_, ?_⟩, ?_⟩
  · simp [CheckHeartbeat, hdev, findActiveByUserID, hq]
  · rw [evalRules_eq_filter]
    refine List.mem_map_of_mem _ ?_
    refine List.mem_filter.mpr ⟨List.mem_filter.mpr ⟨hmem, hen⟩, ?_⟩
    simp [happ, hcc]
  · show getTriggeredValue n.conditions hb = 0
    rw [hempty]
    rfl

/-- Witness for emptyConditions_always_alert at concrete inputs. -/
theorem emptyConditions_always_alert_witness :
    (sendNotification "u1"
      ⟨"n1", "u1", "r", "", true, some [], some []⟩
      ⟨"dev1", "Device", "", "SN1", "", "u1"⟩
      ⟨"dev1", 85, 60, 0, 0, 0, 0⟩).message.triggeredValue = 0 ∧
    checkConditions (some []) ⟨"dev1", 85, 60, 0, 0, 0, 0⟩ = true := by
  have h := emptyConditions_always_alert
    ⟨fun _ => Except.ok ⟨"dev1", "Device", "", "SN1", "", "u1"⟩,
     fun _ => [⟨"n1", "u1", "r", "", true, some [], some []⟩], false⟩
    ⟨"dev1", 85, 60, 0, 0, 0, 0⟩
    ⟨"dev1", "Device", "", "SN1", "", "u1"⟩
    ⟨"n1", "u1", "r", "", true, some [], some []⟩
    rfl rfl (by decide) rfl (by decide) rfl
  exact ⟨h.2.2, h.1⟩

/-- C6: the consumer handles each queue message through deserialize,
device-id parse, device resolution, persistence and rule evaluation in
that order; a failure at any step discards only that message (the trace
stops at the failing step), an evaluator error is never propagated, and
the loop processes every delivered message, so no single failure
terminates it. -/
theorem consumer_failure_isolation :
    (∀ (env : ConsumerEnv) (bodies : List String),
      (consumeLoop env bodies).length = bodies.length) ∧
    (∀ (env : ConsumerEnv) (body : String),
      processOne env body = [ConsumeAction.deserialize] ∨
      processOne env body = [ConsumeAction.deserialize, ConsumeAction.parseId] ∨
      processOne env body
        = [ConsumeAction.deserialize, ConsumeAction.parseId,
           ConsumeAction.resolveDevice] ∨
      processOne env body
        = [ConsumeAction.deserialize, ConsumeAction.parseId,
           ConsumeAction.resolveDevice, ConsumeAction.persist] ∨
      processOne env body = fullConsumeTrace) ∧
    (∀ (env : ConsumerEnv) (body : String),
      env.decode body = none →
      processOne env body = [ConsumeAction.deserialize]) ∧
    (∀ (env : ConsumerEnv) (body : String) (msg : HeartbeatMsg) (did : String)
        (dev : Device),
      env.decode body = some msg → env.parseUUID msg.deviceID = some did →
      env.findDevice did = Except.ok dev →
      env.createHeartbeat did msg = Except.ok () →
      processOne env body = fullConsumeTrace) := by
  refine ⟨?_, ?_, ?_, ?_⟩
  · intro env bodies
    induction bodies with
    | nil => rfl
    | cons b rest ih => simp [consumeLoop, ih]
  · intro env body
    cases hdec : env.decode body with
    | none => exact Or.inl (by simp [processOne, hdec])
    | some msg =>
      cases hp : env.parseUUID msg.deviceID with
      | none => exact Or.inr (Or.inl (by simp [processOne, hdec, hp]))
      | some did =>
        cases hf : env.findDevice did with
        | error e =>
          exact Or.inr (Or.inr (Or.inl (by simp [processOne, hdec, hp, hf])))
        | ok dev =>
          cases hc : env.createHeartbeat did msg with
          | error e =>
            exact Or.inr (Or.inr (Or.inr (Or.inl
              (by simp [processOne, hdec, hp, hf, hc]))))
          | ok uu =>
            refine Or.inr (Or.inr (Or.inr (Or.inr ?_)))
            cases hh : env.checkHeartbeat (msgToHeartbeat did msg) with
            | error e => simp [processOne, hdec, hp, hf, hc, hh]
            | ok vv => simp [processOne, hdec, hp, hf, hc, hh]
  · intro env body h
    simp [processOne, h]
  · intro env body msg did dev h1 h2 h3 h4
    simp only [processOne, h1, h2, h3, h4]
    cases hh : env.checkHeartbeat (msgToHeartbeat did msg) <;> rfl

/-- Witness for consumer_failure_isolation at concrete inputs. -/
theorem consumer_failure_isolation_witness :
    processOne
      ⟨fun _ => none, fun _ => none, fun _ => Except.error (),
       fun _ _ => Except.ok (), fun _ => Except.ok ()⟩
      "garbage" = [ConsumeAction.deserialize] := by
  exact consumer_failure_isolation.2.2.1
    ⟨fun _ => none, fun _ => none, fun _ => Except.error (),
     fun _ _ => Except.ok (), fun _ => Except.ok ()⟩
    "garbage" rfl

/-- C1: over every sequence of coordinator events from the initial hub
state, the table holds at most one connection per owner; and registering
a connection for an owner that already has one evicts the existing
connection — closing its Send channel and its socket — and installs the
new one. -/
theorem hub_one_connection_per_owner (evs : List HubEvent) (u : String) :
    countKey u (hubRun initialHub evs).clients ≤ 1 ∧
    (∀ (s : HubState) (c existing : Client),
      findKey c.userID s.clients = some existing →
      findKey c.userID (stepRegister s c).clients = some c ∧
      existing.connId ∈ (stepRegister s c).chanClosed ∧
      (stepRegister s c).socketCloses.count existing.connId
        = s.socketCloses.count existing.connId + 1) := by
  constructor
  · exact tableOK_hubRun evs initialHub (fun v => Nat.zero_le 1) u
  · intro s c existing h
    have hcc : (stepRegister s c).chanClosed
        = (safeCloseChan { s with clients := eraseKey c.userID s.clients }
            existing.connId).chanClosed := by
      unfold stepRegister
      rw [h]
      rfl
    have hsc : (stepRegister s c).socketCloses
        = existing.connId :: s.socketCloses := by
      unfold stepRegister
      rw [h]
      show existing.connId ::
        (safeCloseChan { s with clients := eraseKey c.userID s.clients }
          existing.connId).socketCloses = existing.connId :: s.socketCloses
      rw [safeCloseChan_socketCloses]
    refine ⟨?_, ?_, ?_⟩
    · rw [stepRegister_clients]
      simp [findKey]
    · rw [hcc]
      exact safeCloseChan_mem_self _ _
    · rw [hsc]
      exact List.count_cons_self _ _

/-- Witness for hub_one_connection_per_owner at concrete inputs. -/
theorem hub_one_connection_per_owner_witness :
    countKey "alice" (hubRun initialHub
      [HubEvent.register ⟨"alice", 1, [], 256⟩,
       HubEvent.register ⟨"alice", 2, [], 256⟩]).clients ≤ 1 ∧
    findKey "alice" (stepRegister
      ⟨[("alice", ⟨"alice", 1, [], 256⟩)], [], [], false⟩
      ⟨"alice", 2, [], 256⟩).clients = some ⟨"alice", 2, [], 256⟩ ∧
    (1 : Nat) ∈ (stepRegister ⟨[("alice", ⟨"alice", 1, [], 256⟩)], [], [], false⟩
      ⟨"alice", 2, [], 256⟩).chanClosed := by
  have h := hub_one_connection_per_owner
    [HubEvent.register ⟨"alice", 1, [], 256⟩,
     HubEvent.register ⟨"alice", 2, [], 256⟩] "alice"
  have h2 := h.2 ⟨[("alice", ⟨"alice", 1, [], 256⟩)], [], [], false⟩
    ⟨"alice", 2, [], 256⟩ ⟨"alice", 1, [], 256⟩ (by decide)
  exact ⟨h.1, h2.1, h2.2.1⟩

/-- C7: an alert delivered for an owner whose live connection's mailbox is
full is dropped and the connection force-unregistered: the connection
leaves the table and is closed, the payload is enqueued nowhere, and all
other entries are untouched. -/
theorem hub_backpressure_drop (s : HubState) (u payload : String) (c : Client)
    (hlook : findKey u s.clients = some c)
    (hkey : c.userID = u)
    (hfull : c.cap ≤ c.send.length) :
    (deliverAlert s u payload).clients = eraseKey u s.clients ∧
    findKey u (deliverAlert s u payload).clients = none ∧
    c.connId ∈ (deliverAlert s u payload).chanClosed ∧
    (deliverAlert s u payload).socketCloses.count c.connId
      = s.socketCloses.count c.connId + 1 := by
  have hnlt : ¬ (c.send.length < c.cap) := by omega
  have hstep : deliverAlert s u payload = stepUnregister s c := by
    unfold deliverAlert
    rw [hlook]
    simp [hnlt]
  have hfind : findKey c.userID s.clients = some c := by
    rw [hkey]
    exact hlook
  have hclients : (stepUnregister s c).clients = eraseKey u s.clients := by
    unfold stepUnregister
    rw [hfind]
    simp [closeSocket_clients, safeCloseChan_clients, hkey]
  have hchan : (stepUnregister s c).chanClosed
      = (safeCloseChan { s with clients := eraseKey c.userID s.clients }
          c.connId).chanClosed := by
    unfold stepUnregister
    rw [hfind]
    simp [closeSocket_chanClosed]
  have hsock : (stepUnregister s c).socketCloses = c.connId :: s.socketCloses := by
    unfold stepUnregister
    rw [hfind]
    simp [closeSocket_socketCloses, safeCloseChan_socketCloses]
  refine ⟨?_, ?_, ?_, ?_⟩
  · rw [hstep, hclients]
  · rw [hstep, hclients]
    exact findKey_eraseKey_self u s.clients
  · rw [hstep, hchan]
    exact safeCloseChan_mem_self _ _
  · rw [hstep, hsock]
    exact List.count_cons_self _ _

/-- Witness for hub_backpressure_drop: one client whose two-slot mailbox
already holds two messages. -/
theorem hub_backpressure_drop_witness :
    (deliverAlert ⟨[("u1", ⟨"u1", 7, ["m1", "m2"], 2⟩)], [], [], false⟩
      "u1" "alert").clients
      = eraseKey "u1" [("u1", ⟨"u1", 7, ["m1", "m2"], 2⟩)] ∧
    findKey "u1" (deliverAlert
      ⟨[("u1", ⟨"u1", 7, ["m1", "m2"], 2⟩)], [], [], false⟩
      "u1" "alert").clients = none := by
  have h := hub_backpressure_drop
    ⟨[("u1", ⟨"u1", 7, ["m1", "m2"], 2⟩)], [], [], false⟩
    "u1" "alert" ⟨"u1", 7, ["m1", "m2"], 2⟩ (by decide) rfl (by decide)
  exact ⟨h.1, h.2.1⟩

/-- C8: invoking the hub shutdown twice is safe: the first invocation
drains the table and closes every connection's Send channel and socket
exactly once, and the second invocation changes nothing. -/
theorem hub_stop_twice_safe (s : HubState) (u : String) (c : Client)
    (hstop : s.stopped = false)
    (hmem : (u, c) ∈ s.clients)
    (hids : (s.clients.map (fun p => p.2.connId)).Nodup)
    (hclosed : s.chanClosed.Nodup) :
    stopAndDrain (stopAndDrain s) = stopAndDrain s ∧
    (stopAndDrain s).clients = [] ∧
    (stopAndDrain s).chanClosed.count c.connId = 1 ∧
    (stopAndDrain s).socketCloses.count c.connId
      = s.socketCloses.count c.connId + 1 := by
  have hs1 : stopAndDrain s = stepShutdown { s with stopped := true } := by
    unfold stopAndDrain
    rw [hstop]
    simp
  have hstopped : (stopAndDrain s).stopped = true := by
    rw [hs1]
    show (drainClients { s with stopped := true } s.clients).stopped = true
    rw [drainClients_stopped]
  refine ⟨?_, ?_, ?_, ?_⟩
  · have hdef : stopAndDrain (stopAndDrain s)
        = if (stopAndDrain s).stopped then stopAndDrain s
          else stepShutdown { stopAndDrain s with stopped := true } := rfl
    rw [hdef, hstopped]
    simp
  · rw [hs1]
    rfl
  · rw [hs1]
    show (drainClients { s with stopped := true } s.clients).chanClosed.count
      c.connId = 1
    apply List.count_eq_one_of_mem
    · exact drainClients_chanClosed_nodup _ _ hclosed
    · exact drainClients_mem_chanClosed _ _ u c hmem
  · rw [hs1]
    show (drainClients { s with stopped := true } s.clients).socketCloses.count
      c.connId = s.socketCloses.count c.connId + 1
    rw [drainClients_socketCloses_count]
    have hmap : (s.clients.map (fun p => p.2.connId)).count c.connId = 1 := by
      apply List.count_eq_one_of_mem hids
      exact List.mem_map_of_mem _ hmem
    rw [hmap]

/-- Witness for hub_stop_twice_safe at a concrete one-client hub. -/
theorem hub_stop_twice_safe_witness :
    stopAndDrain (stopAndDrain ⟨[("u1", ⟨"u1", 3, [], 256⟩)], [], [], false⟩)
      = stopAndDrain ⟨[("u1", ⟨"u1", 3, [], 256⟩)], [], [], false⟩ ∧
    (stopAndDrain ⟨[("u1", ⟨"u1", 3, [], 256⟩)], [], [], false⟩).clients = [] := by
  have h := hub_stop_twice_safe ⟨[("u1", ⟨"u1", 3, [], 256⟩)], [], [], false⟩
    "u1" ⟨"u1", 3, [], 256⟩ rfl (by decide) (by decide) (by decide)
  exact ⟨h.1, h.2.1⟩
